import Mathlib

/-!
# Verification of the Hertz inventory tracker (`inventorytracker/app.py`)

A shallow embedding of the reconciliation core of the tracker:

* a `RawCar` is the JSON record returned by the inventory API (a Python
  dict; every key may be missing, hence `Option` fields);
* `extract` is the block of `car['...']` accesses at the top of
  `store_car` — a missing key raises `KeyError`, modelled by
  `Except PyError`;
* `DB` is the SQLite database: the `cars` table (primary key `uuid`) and
  the three append-only history tables `car_prices`,
  `car_inventory_dates`, `car_mileages`;
* `store_car` is the reconciliation of one observation (change
  detection, upsert, history appends); `store_cars` is one page with its
  single `conn.commit()` at the end;
* `check_and_update_car` is the targeted VIN re-check for a removal
  candidate, and `main_run` is the full sweep of `main`.

Clocks: `datetime.now()` is modelled by an explicit `now : String`
argument, and SQLite's `CURRENT_TIMESTAMP` default of the history tables
by `dbNow : String`.  Network fetches are modelled by explicit inputs: a
list of pages for the pagination phase and a `fetchVin` function for the
targeted re-checks.  File archiving (`archive_cars`) and stdout printing
are pure I/O and are not modelled.
-/

set_option autoImplicit false

namespace InventoryTracker

/-- A Python value as it appears in a car record / database row.  SQLite
TEXT/REAL/INTEGER map to `str`/`rat`/`int`; SQL NULL is `null`. -/
inductive Value where
  | str (s : String)
  | int (n : Int)
  | rat (q : Rat)
  | null
deriving DecidableEq, Repr

/-- Python exceptions that the tracker can raise: `KeyError` from a
missing dict key, `TypeError` from subscripting `None`
(`cursor.fetchone()[0]` when the query returned no row), and the
`requests` errors raised by `response.raise_for_status()` /
connection failures. -/
inductive PyError where
  | keyError (k : String)
  | noneSubscript
  | sourceUnavailable
deriving DecidableEq, Repr

/-- The `address` sub-dict of a raw inventory record. -/
structure RawAddress where
  city : Option String
  state : Option String
  postalCode : Option String
deriving DecidableEq, Repr

/-- One raw inventory record as returned by `get_inventory` (a merged
`inventory`/`trackingData` dict).  Every key may be absent. -/
structure RawCar where
  uuid : Option String
  vin : Option String
  make : Option String
  model : Option String
  year : Option Int
  odometer : Option Int
  internetPrice : Option Rat
  address : Option RawAddress
  inventoryDate : Option String
  inventoryType : Option String
  link : Option String
deriving DecidableEq, Repr

/-- Result of one HTTP fetch against the inventory API. -/
inductive FetchResult where
  | ok (cars : List RawCar)
  | unavailable

/-- The thirteen local variables extracted at the top of `store_car`. -/
structure ExtractedCar where
  uuid : String
  vin : String
  make : String
  model : String
  year : Int
  mileage : Int
  price : Rat
  city : String
  state : String
  postal_code : String
  inventory_date : String
  inventory_type : String
  link : String
deriving DecidableEq, Repr

/-- `car['k']`: a missing key raises `KeyError('k')`. -/
def getKey {α : Type} (k : String) : Option α → Except PyError α
  | some v => Except.ok v
  | none => Except.error (PyError.keyError k)

/-- The field extraction block of `store_car` (lines 129–141), in source
order; the first missing key aborts with its `KeyError`. -/
def extract (car : RawCar) : Except PyError ExtractedCar := do
  let uuid ← getKey "uuid" car.uuid
  let vin ← getKey "vin" car.vin
  let make ← getKey "make" car.make
  let model ← getKey "model" car.model
  let year ← getKey "year" car.year
  let mileage ← getKey "odometer" car.odometer
  let price ← getKey "internetPrice" car.internetPrice
  let addr ← getKey "address" car.address
  let city ← getKey "city" addr.city
  let state ← getKey "state" addr.state
  let postal_code ← getKey "postalCode" addr.postalCode
  let inventory_date ← getKey "inventoryDate" car.inventoryDate
  let inventory_type ← getKey "inventoryType" car.inventoryType
  let link ← getKey "link" car.link
  Except.ok ⟨uuid, vin, make, model, year, mileage, price, city, state,
    postal_code, inventory_date, inventory_type, link⟩

/-- A complete raw record carrying exactly the fields of `c`. -/
def toRaw (c : ExtractedCar) : RawCar :=
  { uuid := some c.uuid
    vin := some c.vin
    make := some c.make
    model := some c.model
    year := some c.year
    odometer := some c.mileage
    internetPrice := some c.price
    address := some ⟨some c.city, some c.state, some c.postal_code⟩
    inventoryDate := some c.inventory_date
    inventoryType := some c.inventory_type
    link := some c.link }

/-- One row of the `cars` table, columns in `CREATE TABLE` order. -/
structure CarRow where
  uuid : String
  vin : String
  price : Rat
  make : String
  model : String
  year : Int
  mileage : Int
  city : String
  state : String
  postal_code : String
  inventory_date : String
  inventory_type : String
  link : String
  first_seen : String
  last_seen : String
  removal_date : Option String
deriving DecidableEq, Repr

/-- One row of `car_prices`. -/
structure PriceRow where
  uuid : String
  price : Rat
  timestamp : String
deriving DecidableEq, Repr

/-- One row of `car_inventory_dates`. -/
structure InvDateRow where
  uuid : String
  inventory_date : String
  timestamp : String
deriving DecidableEq, Repr

/-- One row of `car_mileages`. -/
structure MileageRow where
  uuid : String
  mileage : Int
  timestamp : String
deriving DecidableEq, Repr

/-- The SQLite database `hertz_inventory.db` (rows in insertion order). -/
structure DB where
  cars : List CarRow
  car_prices : List PriceRow
  car_inventory_dates : List InvDateRow
  car_mileages : List MileageRow
deriving DecidableEq, Repr

def emptyDB : DB := ⟨[], [], [], []⟩

/-- `SELECT * FROM cars WHERE uuid=?` followed by `fetchone()`. -/
def findCar (db : DB) (uuid : String) : Option CarRow :=
  db.cars.find? (fun r => r.uuid == uuid)

/-- The tuple `existing_car` returned by `SELECT *`, in column order
(`Value.null` for a NULL `removal_date`). -/
def rowValues (r : CarRow) : List Value :=
  [Value.str r.uuid, Value.str r.vin, Value.rat r.price, Value.str r.make,
   Value.str r.model, Value.int r.year, Value.int r.mileage,
   Value.str r.city, Value.str r.state, Value.str r.postal_code,
   Value.str r.inventory_date, Value.str r.inventory_type,
   Value.str r.link, Value.str r.first_seen, Value.str r.last_seen,
   (r.removal_date.map Value.str).getD Value.null]

/-- `locals()[field]` for the thirteen extracted locals of `store_car`. -/
def localValue (c : ExtractedCar) (f : String) : Value :=
  if f == "uuid" then Value.str c.uuid
  else if f == "vin" then Value.str c.vin
  else if f == "price" then Value.rat c.price
  else if f == "make" then Value.str c.make
  else if f == "model" then Value.str c.model
  else if f == "year" then Value.int c.year
  else if f == "mileage" then Value.int c.mileage
  else if f == "city" then Value.str c.city
  else if f == "state" then Value.str c.state
  else if f == "postal_code" then Value.str c.postal_code
  else if f == "inventory_date" then Value.str c.inventory_date
  else if f == "inventory_type" then Value.str c.inventory_type
  else if f == "link" then Value.str c.link
  else Value.null

/-- The field list enumerated by the comparison loop of `store_car`. -/
def comparedFields : List String :=
  ["uuid", "vin", "price", "make", "model", "year", "mileage",
   "city", "state", "postal_code", "inventory_date",
   "inventory_type", "link"]

/-- The fields `continue`d over by the comparison loop. -/
def volatileFields : List String := ["price", "inventory_date", "mileage"]

/-- One change-log entry produced by `log_changes`. -/
structure ChangeEvent where
  uuid : String
  field : String
  oldValue : Value
  newValue : Value
deriving DecidableEq, Repr

/-- One iteration of the comparison loop: entry `(i, field)` of
`enumerate(comparedFields)` compares `existing_car[i]` with
`locals()[field]` and logs at most one change. -/
def fieldCheck (row : CarRow) (c : ExtractedCar) (i : Nat) (f : String) :
    List ChangeEvent :=
  if f ∈ volatileFields then []
  else if (rowValues row).getD i Value.null ≠ localValue c f then
    [{ uuid := c.uuid
       field := f
       oldValue := (rowValues row).getD i Value.null
       newValue := localValue c f }]
  else []

/-- The comparison loop of `store_car` (lines 149–160): the change
events logged, in field order. -/
def detectChanges (row : CarRow) (c : ExtractedCar) : List ChangeEvent :=
  (comparedFields.enum.map (fun p => fieldCheck row c p.1 p.2)).flatten

/-- The `DO UPDATE SET` arm of the upsert: every observed column is
overwritten, `last_seen` and `removal_date` take the excluded (new)
values, `uuid` and `first_seen` are untouched. -/
def updateRow (r : CarRow) (c : ExtractedCar) (now : String) : CarRow :=
  { r with
    vin := c.vin
    price := c.price
    make := c.make
    model := c.model
    year := c.year
    mileage := c.mileage
    city := c.city
    state := c.state
    postal_code := c.postal_code
    inventory_date := c.inventory_date
    inventory_type := c.inventory_type
    link := c.link
    last_seen := now
    removal_date := none }

/-- The `INSERT` arm of the upsert: `first_seen = last_seen = now`,
`removal_date = NULL`. -/
def newRow (c : ExtractedCar) (now : String) : CarRow :=
  { uuid := c.uuid
    vin := c.vin
    price := c.price
    make := c.make
    model := c.model
    year := c.year
    mileage := c.mileage
    city := c.city
    state := c.state
    postal_code := c.postal_code
    inventory_date := c.inventory_date
    inventory_type := c.inventory_type
    link := c.link
    first_seen := now
    last_seen := now
    removal_date := none }

/-- `INSERT INTO cars ... ON CONFLICT(uuid) DO UPDATE SET ...`
(lines 163–181). -/
def upsertCar (c : ExtractedCar) (now : String) (db : DB) : DB :=
  { db with cars :=
      match db.cars.find? (fun r => r.uuid == c.uuid) with
      | some _ => db.cars.map (fun r =>
          if r.uuid == c.uuid then updateRow r c now else r)
      | none => db.cars ++ [newRow c now] }

/-- The body of `store_car` after successful field extraction: compare
and log, upsert the car row, then append one row to each of the three
history tables (unconditionally). -/
def store_car_run (c : ExtractedCar) (now dbNow : String) (db : DB) :
    DB × List ChangeEvent :=
  let events := match db.cars.find? (fun r => r.uuid == c.uuid) with
    | some row => detectChanges row c
    | none => []
  let db1 := upsertCar c now db
  ({ db1 with
      car_prices := db1.car_prices ++
        [{ uuid := c.uuid, price := c.price, timestamp := dbNow }]
      car_inventory_dates := db1.car_inventory_dates ++
        [{ uuid := c.uuid, inventory_date := c.inventory_date, timestamp := dbNow }]
      car_mileages := db1.car_mileages ++
        [{ uuid := c.uuid, mileage := c.mileage, timestamp := dbNow }] },
   events)

/-- `store_car(car, cursor)` (lines 128–199): extract the required keys
(raising `KeyError` if one is missing), then run the reconciliation. -/
def store_car (car : RawCar) (now dbNow : String) (db : DB) :
    Except PyError (DB × List ChangeEvent) :=
  (extract car).map (fun c => store_car_run c now dbNow db)

/-- The `for car in cars: store_car(car, cursor)` loop of `store_cars`,
threading the uncommitted working state; the first exception
propagates. -/
def store_cars_loop (now dbNow : String) :
    List RawCar → DB → Except PyError (DB × List ChangeEvent)
  | [], db => Except.ok (db, [])
  | car :: rest, db => do
      let (db1, ev1) ← store_car car now dbNow db
      let (db2, ev2) ← store_cars_loop now dbNow rest db1
      Except.ok (db2, ev1 ++ ev2)

/-- `store_cars(cars)` (lines 62–125): open a connection, create the
tables if absent (idempotent; on an already-initialised `DB` state a
no-op), store every record, then `conn.commit()`.  The returned `DB` is
the committed state; an `error` means the exception propagated before
the commit. -/
def store_cars (cars : List RawCar) (now dbNow : String) (db : DB) :
    Except PyError (DB × List ChangeEvent) :=
  store_cars_loop now dbNow cars db

/-- The committed database visible after a call whose writes went
through a single connection: `conn.commit()` runs only when no
exception was raised; otherwise the connection is abandoned and its
uncommitted writes are rolled back, leaving the database as it was. -/
def commitOf (result : Except PyError (DB × List ChangeEvent))
    (dbBefore : DB) : DB :=
  match result with
  | Except.ok (db, _) => db
  | Except.error _ => dbBefore

/-- `next((car for car in potential_cars if car['uuid'] == uuid), None)`:
a record without a `uuid` key raises `KeyError` when the generator
reaches it. -/
def findMatchingCar (uuid : String) :
    List RawCar → Except PyError (Option RawCar)
  | [] => Except.ok none
  | c :: rest =>
      match c.uuid with
      | none => Except.error (PyError.keyError "uuid")
      | some u =>
          if u == uuid then Except.ok (some c) else findMatchingCar uuid rest

/-- The `UPDATE cars SET removal_date = ? WHERE uuid = ?` statement. -/
def markRemoved (uuid now : String) (db : DB) : DB :=
  { db with cars := db.cars.map (fun r =>
      if r.uuid == uuid then { r with removal_date := some now } else r) }

/-- `check_and_update_car(uuid, file_prefix)` (lines 202–234): look up
the car's VIN (`fetchone()[0]` raises on a missing row), fetch the
VIN-filtered inventory, find the record with the matching uuid, and
either reconcile it (`store_car`) or set `removal_date`.  The archive
write is unmodelled I/O.  The returned `DB` is the committed state. -/
def check_and_update_car (uuid : String) (fetchVin : String → FetchResult)
    (now dbNow : String) (db : DB) :
    Except PyError (DB × List ChangeEvent) :=
  match db.cars.find? (fun r => r.uuid == uuid) with
  | none => Except.error PyError.noneSubscript
  | some row =>
      match fetchVin row.vin with
      | FetchResult.unavailable => Except.error PyError.sourceUnavailable
      | FetchResult.ok potential_cars =>
          match findMatchingCar uuid potential_cars with
          | Except.error e => Except.error e
          | Except.ok (some c) => store_car c now dbNow db
          | Except.ok none => Except.ok (markRemoved uuid now db, [])

/-- The `for car in cars: encountered_uuids.add(car['uuid'])` loop; the
set is modelled as a duplicate-free list in insertion order. -/
def collectUuids : List RawCar → List String → Except PyError (List String)
  | [], acc => Except.ok acc
  | c :: rest, acc => do
      let u ← getKey "uuid" c.uuid
      collectUuids rest (if u ∈ acc then acc else acc ++ [u])

/-- The pagination loop of `main` (lines 253–264): each successive
`get_inventory(start_index)` call is modelled by the next element of
`pages` (and by `[]` once `pages` is exhausted); an empty page breaks
the loop.  Each page is stored and committed by `store_cars`. -/
def paginate (now dbNow : String) :
    List (List RawCar) → DB → List String →
    Except PyError (DB × List String)
  | [], db, encountered => Except.ok (db, encountered)
  | page :: rest, db, encountered =>
      if page.isEmpty then Except.ok (db, encountered)
      else do
        let enc ← collectUuids page encountered
        let (db1, _events) ← store_cars page now dbNow db
        paginate now dbNow rest db1 enc

/-- `SELECT uuid FROM cars WHERE removal_date IS NULL`. -/
def activeUuids (db : DB) : List String :=
  (db.cars.filter (fun r => r.removal_date.isNone)).map (fun r => r.uuid)

/-- `potential_removed_uuids = db_uuids - encountered_uuids`. -/
def candidateUuids (db : DB) (encountered : List String) : List String :=
  (activeUuids db).filter (fun u => !(encountered.contains u))

/-- The `for uuid in potential_removed_uuids: check_and_update_car(...)`
loop; each candidate's check commits separately, the first exception
propagates. -/
def removalLoop (fetchVin : String → FetchResult) (now dbNow : String) :
    List String → DB → Except PyError DB
  | [], db => Except.ok db
  | u :: rest, db => do
      let (db1, _ev) ← check_and_update_car u fetchVin now dbNow db
      removalLoop fetchVin now dbNow rest db1

/-- `main()` (lines 246–278): paginate, compute the removal candidates,
re-check each.  The second component of the result is the function's
return value — Python's implicit `None`, i.e. `Unit`. -/
def main_run (pages : List (List RawCar)) (fetchVin : String → FetchResult)
    (now dbNow : String) (db : DB) : Except PyError (DB × Unit) := do
  let (db1, encountered) ← paginate now dbNow pages db []
  let db2 ← removalLoop fetchVin now dbNow (candidateUuids db1 encountered) db1
  Except.ok (db2, ())

/-- A sequence of successful reconciliations (each element is one
`store_car` call: the observation with its wall-clock and database
timestamps), as performed page after page, sweep after sweep. -/
def storeSeq : List (ExtractedCar × String × String) → DB → DB
  | [], db => db
  | (c, now, dbNow) :: rest, db => storeSeq rest (store_car_run c now dbNow db).1

/-! ### Concrete fixtures (used only by witness/counterexample theorems) -/

/-- A sample observation. -/
def sampleCar : ExtractedCar :=
  { uuid := "u1"
    vin := "v1"
    make := "Toyota"
    model := "Corolla"
    year := 2020
    mileage := 10000
    price := 25000
    city := "Austin"
    state := "TX"
    postal_code := "78701"
    inventory_date := "2024-01-01"
    inventory_type := "used"
    link := "l1" }

/-- `sampleCar` re-observed with a different make and price. -/
def sampleCarB : ExtractedCar := { sampleCar with make := "Honda", price := 24000 }

/-- The database after storing `sampleCar` into an empty store. -/
def sampleDB1 : DB := (store_car_run sampleCar "T1" "D1" emptyDB).1

/-- `sampleDB1` with `sampleCar` marked removed at time `TR`. -/
def sampleDBRemoved : DB := markRemoved "u1" "TR" sampleDB1

/-- A second, distinct sample observation. -/
def sampleCar2 : ExtractedCar := { sampleCar with uuid := "u2", vin := "v2" }

/-- A raw record missing its required `vin` key. -/
def badRawCar : RawCar := { toRaw sampleCar with vin := none }

end InventoryTracker

namespace InventoryTracker

/-! ## Ground lemmas about the embedded operations -/

theorem extract_toRaw (c : ExtractedCar) : extract (toRaw c) = Except.ok c := rfl

theorem store_car_toRaw (c : ExtractedCar) (now dbNow : String) (db : DB) :
    store_car (toRaw c) now dbNow db = Except.ok (store_car_run c now dbNow db) := rfl

theorem updateRow_uuid (r : CarRow) (c : ExtractedCar) (now : String) :
    (updateRow r c now).uuid = r.uuid := rfl

theorem updateRow_first_seen (r : CarRow) (c : ExtractedCar) (now : String) :
    (updateRow r c now).first_seen = r.first_seen := rfl

theorem newRow_uuid (c : ExtractedCar) (now : String) :
    (newRow c now).uuid = c.uuid := rfl

theorem find?_map_uuid_invariant (g : CarRow → CarRow)
    (hg : ∀ r, (g r).uuid = r.uuid) (u : String) (l : List CarRow) :
    (l.map g).find? (fun r => r.uuid == u) =
      (l.find? (fun r => r.uuid == u)).map g := by
  induction l with
  | nil => rfl
  | cons r rest ih =>
      by_cases h : r.uuid = u
      · simp [List.find?_cons, hg, h]
      · simp [List.find?_cons, hg, h, ih]

theorem store_car_run_cars (c : ExtractedCar) (now dbNow : String) (db : DB) :
    (store_car_run c now dbNow db).1.cars = (upsertCar c now db).cars := rfl

theorem store_car_run_car_prices (c : ExtractedCar) (now dbNow : String) (db : DB) :
    (store_car_run c now dbNow db).1.car_prices =
      db.car_prices ++ [{ uuid := c.uuid, price := c.price, timestamp := dbNow }] := rfl

theorem store_car_run_car_inventory_dates (c : ExtractedCar) (now dbNow : String) (db : DB) :
    (store_car_run c now dbNow db).1.car_inventory_dates =
      db.car_inventory_dates ++
        [{ uuid := c.uuid, inventory_date := c.inventory_date, timestamp := dbNow }] := rfl

theorem store_car_run_car_mileages (c : ExtractedCar) (now dbNow : String) (db : DB) :
    (store_car_run c now dbNow db).1.car_mileages =
      db.car_mileages ++ [{ uuid := c.uuid, mileage := c.mileage, timestamp := dbNow }] := rfl

theorem store_car_run_events (c : ExtractedCar) (now dbNow : String) (db : DB) :
    (store_car_run c now dbNow db).2 =
      match db.cars.find? (fun r => r.uuid == c.uuid) with
      | some row => detectChanges row c
      | none => [] := rfl

theorem upsertCar_find_self (c : ExtractedCar) (now : String) (db : DB) :
    (upsertCar c now db).cars.find? (fun r => r.uuid == c.uuid) =
      some (match db.cars.find? (fun r => r.uuid == c.uuid) with
        | some r => updateRow r c now
        | none => newRow c now) := by
  have hg : ∀ r : CarRow,
      (if r.uuid == c.uuid then updateRow r c now else r).uuid = r.uuid := by
    intro r; by_cases h' : r.uuid = c.uuid <;> simp [h', updateRow_uuid]
  cases h : db.cars.find? (fun r => r.uuid == c.uuid) with
  | some r =>
      have hru : r.uuid = c.uuid := by simpa using List.find?_some h
      simp only [upsertCar, h]
      rw [find?_map_uuid_invariant _ hg, h]
      simp [hru]
  | none =>
      simp only [upsertCar, h]
      rw [List.find?_append, h]
      simp [newRow_uuid]

theorem upsertCar_find_other (c : ExtractedCar) (now : String) (db : DB)
    (u : String) (hu : u ≠ c.uuid) :
    (upsertCar c now db).cars.find? (fun r => r.uuid == u) =
      db.cars.find? (fun r => r.uuid == u) := by
  have hg : ∀ r : CarRow,
      (if r.uuid == c.uuid then updateRow r c now else r).uuid = r.uuid := by
    intro r; by_cases h' : r.uuid = c.uuid <;> simp [h', updateRow_uuid]
  cases h : db.cars.find? (fun r => r.uuid == c.uuid) with
  | some r =>
      simp only [upsertCar, h]
      rw [find?_map_uuid_invariant _ hg]
      cases h2 : db.cars.find? (fun r => r.uuid == u) with
      | none => rfl
      | some r' =>
          have hr' : r'.uuid = u := by simpa using List.find?_some h2
          simp [hr', hu]
  | none =>
      simp only [upsertCar, h]
      rw [List.find?_append]
      have hx : ((newRow c now).uuid == u) = false := by
        simp [newRow_uuid]; exact fun h' => hu h'.symm
      simp [List.find?_cons, hx]

theorem markRemoved_find_self (u now : String) (db : DB) (r : CarRow)
    (h : db.cars.find? (fun x => x.uuid == u) = some r) :
    (markRemoved u now db).cars.find? (fun x => x.uuid == u) =
      some { r with removal_date := some now } := by
  have hg : ∀ x : CarRow,
      (if x.uuid == u then { x with removal_date := some now } else x).uuid = x.uuid := by
    intro x; by_cases h' : x.uuid = u <;> simp [h']
  have hru : r.uuid = u := by simpa using List.find?_some h
  simp only [markRemoved]
  rw [find?_map_uuid_invariant _ hg, h]
  simp [hru]

theorem markRemoved_find_other (u now : String) (db : DB) (v : String) (hv : v ≠ u) :
    (markRemoved u now db).cars.find? (fun x => x.uuid == v) =
      db.cars.find? (fun x => x.uuid == v) := by
  have hg : ∀ x : CarRow,
      (if x.uuid == u then { x with removal_date := some now } else x).uuid = x.uuid := by
    intro x; by_cases h' : x.uuid = u <;> simp [h']
  simp only [markRemoved]
  rw [find?_map_uuid_invariant _ hg]
  cases h2 : db.cars.find? (fun x => x.uuid == v) with
  | none => rfl
  | some r' =>
      have hr' : r'.uuid = v := by simpa using List.find?_some h2
      simp [hr', hv]

end InventoryTracker

namespace InventoryTracker

/-! ## Claim C1: change detection exactness -/

/-- C1: when `store_car` reconciles an observation against an existing
stored vehicle with the same uuid, no ChangeEvent is emitted for the
excluded fields `price`, `mileage`, `inventory_date`; if the stored row
and the observation agree on every other compared field the emitted
event list is empty; and each other compared field that differs
contributes exactly one ChangeEvent carrying the stored old value and
the observed new value. -/
theorem C1_change_detection_exact
    (car : RawCar) (c : ExtractedCar) (row : CarRow) (db : DB)
    (now dbNow : String) (db' : DB) (events : List ChangeEvent)
    (hex : extract car = Except.ok c)
    (hfind : db.cars.find? (fun r => r.uuid == c.uuid) = some row)
    (hrun : store_car car now dbNow db = Except.ok (db', events)) :
    ((row.vin = c.vin ∧ row.make = c.make ∧ row.model = c.model ∧
      row.year = c.year ∧ row.city = c.city ∧ row.state = c.state ∧
      row.postal_code = c.postal_code ∧
      row.inventory_type = c.inventory_type ∧ row.link = c.link) →
        events = []) ∧
    events.filter (fun e => e.field == "price") = [] ∧
    events.filter (fun e => e.field == "mileage") = [] ∧
    events.filter (fun e => e.field == "inventory_date") = [] ∧
    events.filter (fun e => e.field == "vin") =
      (if row.vin = c.vin then [] else
        [{ uuid := c.uuid, field := "vin", oldValue := Value.str row.vin,
           newValue := Value.str c.vin }]) ∧
    events.filter (fun e => e.field == "make") =
      (if row.make = c.make then [] else
        [{ uuid := c.uuid, field := "make", oldValue := Value.str row.make,
           newValue := Value.str c.make }]) ∧
    events.filter (fun e => e.field == "model") =
      (if row.model = c.model then [] else
        [{ uuid := c.uuid, field := "model", oldValue := Value.str row.model,
           newValue := Value.str c.model }]) ∧
    events.filter (fun e => e.field == "year") =
      (if row.year = c.year then [] else
        [{ uuid := c.uuid, field := "year", oldValue := Value.int row.year,
           newValue := Value.int c.year }]) ∧
    events.filter (fun e => e.field == "city") =
      (if row.city = c.city then [] else
        [{ uuid := c.uuid, field := "city", oldValue := Value.str row.city,
           newValue := Value.str c.city }]) ∧
    events.filter (fun e => e.field == "state") =
      (if row.state = c.state then [] else
        [{ uuid := c.uuid, field := "state", oldValue := Value.str row.state,
           newValue := Value.str c.state }]) ∧
    events.filter (fun e => e.field == "postal_code") =
      (if row.postal_code = c.postal_code then [] else
        [{ uuid := c.uuid, field := "postal_code",
           oldValue := Value.str row.postal_code,
           newValue := Value.str c.postal_code }]) ∧
    events.filter (fun e => e.field == "inventory_type") =
      (if row.inventory_type = c.inventory_type then [] else
        [{ uuid := c.uuid, field := "inventory_type",
           oldValue := Value.str row.inventory_type,
           newValue := Value.str c.inventory_type }]) ∧
    events.filter (fun e => e.field == "link") =
      (if row.link = c.link then [] else
        [{ uuid := c.uuid, field := "link", oldValue := Value.str row.link,
           newValue := Value.str c.link }]) := by
  have hrun' : store_car_run c now dbNow db = (db', events) := by
    rw [store_car, hex] at hrun
    simpa [Except.map] using hrun
  have hev : events = detectChanges row c := by
    have h2 := congrArg Prod.snd hrun'
    simp only at h2
    rw [← h2, store_car_run_events, hfind]
  subst hev
  have huuid : row.uuid = c.uuid := by simpa using List.find?_some hfind
  refine ⟨?_, ?_, ?_, ?_, ?_, ?_, ?_, ?_, ?_, ?_, ?_, ?_, ?_⟩
  · rintro ⟨e1, e2, e3, e4, e5, e6, e7, e8, e9⟩
    simp [detectChanges, comparedFields, fieldCheck, rowValues, localValue,
      volatileFields, List.enum, List.enumFrom, huuid, e1, e2, e3, e4, e5,
      e6, e7, e8, e9]
  all_goals
    simp [detectChanges, comparedFields, fieldCheck, rowValues, localValue,
      volatileFields, List.enum, List.enumFrom, List.filter_append,
      apply_ite (List.filter (fun e : ChangeEvent => e.field == "price")),
      apply_ite (List.filter (fun e : ChangeEvent => e.field == "mileage")),
      apply_ite (List.filter (fun e : ChangeEvent => e.field == "inventory_date")),
      apply_ite (List.filter (fun e : ChangeEvent => e.field == "vin")),
      apply_ite (List.filter (fun e : ChangeEvent => e.field == "make")),
      apply_ite (List.filter (fun e : ChangeEvent => e.field == "model")),
      apply_ite (List.filter (fun e : ChangeEvent => e.field == "year")),
      apply_ite (List.filter (fun e : ChangeEvent => e.field == "city")),
      apply_ite (List.filter (fun e : ChangeEvent => e.field == "state")),
      apply_ite (List.filter (fun e : ChangeEvent => e.field == "postal_code")),
      apply_ite (List.filter (fun e : ChangeEvent => e.field == "inventory_type")),
      apply_ite (List.filter (fun e : ChangeEvent => e.field == "link"))]

end InventoryTracker

namespace InventoryTracker

/-- Witness for C1: reconciling `sampleCarB` (make and price changed)
against the stored `sampleCar` emits no `price` event and exactly one
`make` event with the old and new values. -/
theorem C1_change_detection_exact_witness :
    ((store_car_run sampleCarB "T2" "D2" sampleDB1).2).filter
        (fun e => e.field == "price") = [] ∧
    ((store_car_run sampleCarB "T2" "D2" sampleDB1).2).filter
        (fun e => e.field == "make") =
      [{ uuid := "u1", field := "make", oldValue := Value.str "Toyota",
         newValue := Value.str "Honda" }] := by
  have h := C1_change_detection_exact (toRaw sampleCarB) sampleCarB
    (newRow sampleCar "T1") sampleDB1 "T2" "D2"
    (store_car_run sampleCarB "T2" "D2" sampleDB1).1
    (store_car_run sampleCarB "T2" "D2" sampleDB1).2
    rfl (by rfl) rfl
  refine ⟨h.2.1, ?_⟩
  have hm := h.2.2.2.2.2.1
  rw [hm]
  simp [newRow, sampleCar, sampleCarB]

/-! ## Claim C2: reconciling twice — no events, history still grows -/

/-- C2: reconciling the same observation twice in succession emits no
ChangeEvents on the second call, yet each of the two calls appends
exactly one row to each of the three history tables. -/
theorem C2_idempotent_reconciliation
    (c : ExtractedCar) (db db1 db2 : DB) (ev1 ev2 : List ChangeEvent)
    (n1 d1 n2 d2 : String)
    (h1 : store_car (toRaw c) n1 d1 db = Except.ok (db1, ev1))
    (h2 : store_car (toRaw c) n2 d2 db1 = Except.ok (db2, ev2)) :
    ev2 = [] ∧
    db1.car_prices.length = db.car_prices.length + 1 ∧
    db1.car_mileages.length = db.car_mileages.length + 1 ∧
    db1.car_inventory_dates.length = db.car_inventory_dates.length + 1 ∧
    db2.car_prices.length = db1.car_prices.length + 1 ∧
    db2.car_mileages.length = db1.car_mileages.length + 1 ∧
    db2.car_inventory_dates.length = db1.car_inventory_dates.length + 1 := by
  rw [store_car_toRaw] at h1 h2
  have h1' : store_car_run c n1 d1 db = (db1, ev1) := by simpa using h1
  have h2' : store_car_run c n2 d2 db1 = (db2, ev2) := by simpa using h2
  have hdb1 : (store_car_run c n1 d1 db).1 = db1 := by rw [h1']
  have hdb2 : (store_car_run c n2 d2 db1).1 = db2 := by rw [h2']
  have hfind1 : db1.cars.find? (fun r => r.uuid == c.uuid) =
      some (match db.cars.find? (fun r => r.uuid == c.uuid) with
        | some r => updateRow r c n1
        | none => newRow c n1) := by
    rw [← hdb1, store_car_run_cars]
    exact upsertCar_find_self c n1 db
  have hev2 : ev2 = [] := by
    have he := congrArg Prod.snd h2'
    simp only at he
    rw [← he, store_car_run_events, hfind1]
    cases hf : db.cars.find? (fun r => r.uuid == c.uuid) with
    | some r =>
        have hru : r.uuid = c.uuid := by simpa using List.find?_some hf
        simp [detectChanges, comparedFields, fieldCheck, rowValues,
          localValue, volatileFields, List.enum, List.enumFrom, updateRow, hru]
    | none =>
        simp [detectChanges, comparedFields, fieldCheck, rowValues,
          localValue, volatileFields, List.enum, List.enumFrom, newRow]
  refine ⟨hev2, ?_, ?_, ?_, ?_, ?_, ?_⟩
  · rw [← hdb1, store_car_run_car_prices]; simp
  · rw [← hdb1, store_car_run_car_mileages]; simp
  · rw [← hdb1, store_car_run_car_inventory_dates]; simp
  · rw [← hdb2, store_car_run_car_prices]; simp
  · rw [← hdb2, store_car_run_car_mileages]; simp
  · rw [← hdb2, store_car_run_car_inventory_dates]; simp

/-- Witness for C2: storing `sampleCar` twice into an empty store —
second call emits nothing, history tables have two rows each. -/
theorem C2_idempotent_reconciliation_witness :
    (store_car_run sampleCar "T2" "D2" sampleDB1).2 = [] ∧
    (store_car_run sampleCar "T2" "D2" sampleDB1).1.car_prices.length = 2 := by
  have h := C2_idempotent_reconciliation sampleCar emptyDB sampleDB1
    (store_car_run sampleCar "T2" "D2" sampleDB1).1
    (store_car_run sampleCar "T1" "D1" emptyDB).2
    (store_car_run sampleCar "T2" "D2" sampleDB1).2
    "T1" "D1" "T2" "D2" rfl rfl
  refine ⟨h.1, ?_⟩
  have := h.2.2.2.2.1
  rw [this]
  rfl

end InventoryTracker

namespace InventoryTracker

/-! ## Claims C4 and C5: first_seen immutability, reactivation -/

theorem store_car_run_preserves_first_seen (c' : ExtractedCar) (n d : String)
    (db : DB) (u : String) (row : CarRow)
    (hfind : db.cars.find? (fun r => r.uuid == u) = some row) :
    ∃ row', (store_car_run c' n d db).1.cars.find? (fun r => r.uuid == u) =
        some row' ∧ row'.first_seen = row.first_seen := by
  rw [store_car_run_cars]
  by_cases h : u = c'.uuid
  · subst h
    rw [upsertCar_find_self, hfind]
    exact ⟨updateRow row c' n, rfl, rfl⟩
  · rw [upsertCar_find_other c' n db u h]
    exact ⟨row, hfind, rfl⟩

theorem storeSeq_preserves_first_seen (obs : List (ExtractedCar × String × String)) :
    ∀ (db : DB) (u : String) (row : CarRow),
      db.cars.find? (fun r => r.uuid == u) = some row →
      ∃ row', (storeSeq obs db).cars.find? (fun r => r.uuid == u) = some row' ∧
        row'.first_seen = row.first_seen := by
  induction obs with
  | nil => exact fun db u row h => ⟨row, h, rfl⟩
  | cons p rest ih =>
      intro db u row h
      obtain ⟨c', n', d'⟩ := p
      obtain ⟨row1, h1, hfs1⟩ := store_car_run_preserves_first_seen c' n' d' db u row h
      obtain ⟨row', h', hfs'⟩ := ih _ u row1 h1
      exact ⟨row', by simpa [storeSeq] using h', by rw [hfs', hfs1]⟩

/-- C4: for a vehicle first inserted by a `store_car` call at time `n1`,
`first_seen` still equals `n1` after any further sequence of successful
reconciliations (of this and other vehicles): the value set at first
insertion is never overwritten. -/
theorem C4_first_seen_immutable
    (c : ExtractedCar) (n1 d1 : String) (db db1 : DB) (ev1 : List ChangeEvent)
    (obs : List (ExtractedCar × String × String))
    (habsent : db.cars.find? (fun r => r.uuid == c.uuid) = none)
    (h1 : store_car (toRaw c) n1 d1 db = Except.ok (db1, ev1)) :
    ∃ row', (storeSeq obs db1).cars.find? (fun r => r.uuid == c.uuid) =
        some row' ∧ row'.first_seen = n1 := by
  rw [store_car_toRaw] at h1
  have h1' : store_car_run c n1 d1 db = (db1, ev1) := by simpa using h1
  have hdb1 : (store_car_run c n1 d1 db).1 = db1 := by rw [h1']
  have hfind1 : db1.cars.find? (fun r => r.uuid == c.uuid) = some (newRow c n1) := by
    rw [← hdb1, store_car_run_cars, upsertCar_find_self, habsent]
  obtain ⟨row', h', hfs⟩ := storeSeq_preserves_first_seen obs db1 c.uuid (newRow c n1) hfind1
  exact ⟨row', h', by rw [hfs]; rfl⟩

/-- Witness for C4: after inserting `sampleCar` at `T1` and reconciling
`sampleCarB` at `T2`, `first_seen` is still `T1`. -/
theorem C4_first_seen_immutable_witness :
    ∃ row', (storeSeq [(sampleCarB, "T2", "D2")] sampleDB1).cars.find?
        (fun r => r.uuid == sampleCar.uuid) = some row' ∧
      row'.first_seen = "T1" := by
  exact C4_first_seen_immutable sampleCar "T1" "D1" emptyDB sampleDB1
    (store_car_run sampleCar "T1" "D1" emptyDB).2 [(sampleCarB, "T2", "D2")]
    rfl rfl

/-- C5: reconciling an observation for an existing uuid overwrites the
row with the observation's values, sets `last_seen` to the current time
and resets `removal_date` to null, whatever its previous value. -/
theorem C5_reobservation_reactivates
    (car : RawCar) (c : ExtractedCar) (row : CarRow) (db db' : DB)
    (events : List ChangeEvent) (now dbNow : String)
    (hex : extract car = Except.ok c)
    (hfind : db.cars.find? (fun r => r.uuid == c.uuid) = some row)
    (hrun : store_car car now dbNow db = Except.ok (db', events)) :
    db'.cars.find? (fun r => r.uuid == c.uuid) = some (updateRow row c now) ∧
    (updateRow row c now).last_seen = now ∧
    (updateRow row c now).removal_date = none := by
  have hrun' : store_car_run c now dbNow db = (db', events) := by
    rw [store_car, hex] at hrun
    simpa [Except.map] using hrun
  have hdb' : (store_car_run c now dbNow db).1 = db' := by rw [hrun']
  refine ⟨?_, rfl, rfl⟩
  rw [← hdb', store_car_run_cars, upsertCar_find_self, hfind]

/-- Witness for C5: re-observing the removed vehicle of `sampleDBRemoved`
resets its `removal_date` to null and advances `last_seen` to `T3`. -/
theorem C5_reobservation_reactivates_witness :
    (store_car_run sampleCar "T3" "D3" sampleDBRemoved).1.cars.find?
        (fun r => r.uuid == sampleCar.uuid) =
      some (updateRow { newRow sampleCar "T1" with removal_date := some "TR" }
        sampleCar "T3") ∧
    (updateRow { newRow sampleCar "T1" with removal_date := some "TR" }
      sampleCar "T3").last_seen = "T3" ∧
    (updateRow { newRow sampleCar "T1" with removal_date := some "TR" }
      sampleCar "T3").removal_date = none := by
  exact C5_reobservation_reactivates (toRaw sampleCar) sampleCar
    { newRow sampleCar "T1" with removal_date := some "TR" }
    sampleDBRemoved (store_car_run sampleCar "T3" "D3" sampleDBRemoved).1
    (store_car_run sampleCar "T3" "D3" sampleDBRemoved).2
    "T3" "D3" rfl (by rfl) rfl

end InventoryTracker

namespace InventoryTracker

/-! ## Claims C6 and C9: malformed records and page atomicity -/

theorem store_cars_loop_cons (now dbNow : String) (car : RawCar)
    (rest : List RawCar) (db : DB) :
    store_cars_loop now dbNow (car :: rest) db =
      (store_car car now dbNow db).bind (fun p =>
        (store_cars_loop now dbNow rest p.1).bind (fun q =>
          Except.ok (q.1, p.2 ++ q.2))) := rfl

theorem store_cars_loop_error_of_malformed (now dbNow : String) (bad : RawCar)
    (rest : List RawCar) (e : PyError) (hbad : extract bad = Except.error e) :
    ∀ (good : List RawCar), (∀ g ∈ good, ∃ cg, extract g = Except.ok cg) →
    ∀ (db : DB),
      store_cars_loop now dbNow (good ++ bad :: rest) db = Except.error e
  | [], _, db => by
      rw [List.nil_append, store_cars_loop_cons, store_car, hbad]
      rfl
  | g :: gs, hgood, db => by
      obtain ⟨cg, hcg⟩ := hgood g (by simp)
      have hgs : ∀ g' ∈ gs, ∃ c', extract g' = Except.ok c' :=
        fun g' h' => hgood g' (List.mem_cons_of_mem _ h')
      have hstep : store_car g now dbNow db =
          Except.ok (store_car_run cg now dbNow db) := by
        rw [store_car, hcg]; rfl
      rw [List.cons_append, store_cars_loop_cons, hstep]
      show (store_cars_loop now dbNow (gs ++ bad :: rest) _).bind _ = _
      rw [store_cars_loop_error_of_malformed now dbNow bad rest e hbad gs hgs _]
      rfl

/-- Counterexample to C6 as stated: a page holding a record with no
`vin` key followed by a well-formed record does not get skipped — the
`KeyError` aborts the whole sweep, and none of the page's writes are
committed (the later well-formed record included). -/
theorem C6_counterexample :
    main_run [[badRawCar, toRaw sampleCar2]] (fun _ => FetchResult.ok [])
        "T1" "D1" emptyDB = Except.error (PyError.keyError "vin") ∧
    commitOf (store_cars [badRawCar, toRaw sampleCar2] "T1" "D1" emptyDB)
        emptyDB = emptyDB :=
  ⟨rfl, rfl⟩

/-- C6 amended: an observation record missing a required field is not
skipped; its `KeyError` propagates out of `store_cars`, aborting the
page and the sweep, and the page's writes are not committed. -/
theorem C6_malformed_record_aborts_page
    (good : List RawCar) (bad : RawCar) (rest : List RawCar)
    (now dbNow : String) (db : DB) (e : PyError)
    (hgood : ∀ g ∈ good, ∃ cg, extract g = Except.ok cg)
    (hbad : extract bad = Except.error e) :
    store_cars (good ++ bad :: rest) now dbNow db = Except.error e ∧
    commitOf (store_cars (good ++ bad :: rest) now dbNow db) db = db := by
  have h := store_cars_loop_error_of_malformed now dbNow bad rest e hbad good hgood db
  have h' : store_cars (good ++ bad :: rest) now dbNow db = Except.error e := h
  exact ⟨h', by rw [h']; rfl⟩

/-- Witness for C6 (amended): the concrete two-record page of the
counterexample aborts with `KeyError 'vin'` and commits nothing. -/
theorem C6_malformed_record_aborts_page_witness :
    store_cars ([toRaw sampleCar2] ++ badRawCar :: []) "T1" "D1" emptyDB =
      Except.error (PyError.keyError "vin") ∧
    commitOf (store_cars ([toRaw sampleCar2] ++ badRawCar :: []) "T1" "D1" emptyDB)
      emptyDB = emptyDB := by
  exact C6_malformed_record_aborts_page [toRaw sampleCar2] badRawCar []
    "T1" "D1" emptyDB (PyError.keyError "vin")
    (fun g hg => ⟨sampleCar2, by
      simp only [List.mem_singleton] at hg
      rw [hg]; rfl⟩) rfl

end InventoryTracker

namespace InventoryTracker

theorem store_cars_loop_ok_spec (now dbNow : String) :
    ∀ (cars : List RawCar) (db db' : DB) (evs : List ChangeEvent),
      store_cars_loop now dbNow cars db = Except.ok (db', evs) →
      (∀ car ∈ cars, ∃ c, extract car = Except.ok c) ∧
      db'.car_prices.length = db.car_prices.length + cars.length ∧
      db'.car_mileages.length = db.car_mileages.length + cars.length ∧
      db'.car_inventory_dates.length = db.car_inventory_dates.length + cars.length
  | [], db, db', evs, h => by
      simp only [store_cars_loop, Except.ok.injEq, Prod.mk.injEq] at h
      obtain ⟨h1, _⟩ := h
      subst h1
      simp
  | car :: rest, db, db', evs, h => by
      rw [store_cars_loop_cons] at h
      cases hex : extract car with
      | error e =>
          rw [store_car, hex] at h
          exact absurd h (by simp [Except.map, Except.bind])
      | ok c =>
          have hstep : store_car car now dbNow db =
              Except.ok (store_car_run c now dbNow db) := by
            rw [store_car, hex]; rfl
          rw [hstep] at h
          simp only [Except.bind] at h
          cases hrest : store_cars_loop now dbNow rest
              (store_car_run c now dbNow db).1 with
          | error e2 => rw [hrest] at h; simp at h
          | ok q =>
              rw [hrest] at h
              simp only [Except.bind, Except.ok.injEq, Prod.mk.injEq] at h
              obtain ⟨hdb', _⟩ := h
              obtain ⟨hall, hp, hm, hi⟩ :=
                store_cars_loop_ok_spec now dbNow rest _ q.1 q.2
                  (by rw [hrest])
              refine ⟨?_, ?_, ?_, ?_⟩
              · intro car' hcar'
                rcases List.mem_cons.mp hcar' with h' | h'
                · exact ⟨c, by rw [h', hex]⟩
                · exact hall car' h'
              · rw [← hdb', hp, store_car_run_car_prices]
                simp [List.length_append]
                omega
              · rw [← hdb', hm, store_car_run_car_mileages]
                simp [List.length_append]
                omega
              · rw [← hdb', hi, store_car_run_car_inventory_dates]
                simp [List.length_append]
                omega

theorem store_cars_loop_error_spec (now dbNow : String) :
    ∀ (cars : List RawCar) (db : DB) (e : PyError),
      store_cars_loop now dbNow cars db = Except.error e →
      ∃ car ∈ cars, extract car = Except.error e
  | [], db, e, h => by simp [store_cars_loop] at h
  | car :: rest, db, e, h => by
      rw [store_cars_loop_cons] at h
      cases hex : extract car with
      | error e' =>
          rw [store_car, hex] at h
          simp only [Except.map, Except.bind, Except.error.injEq] at h
          exact ⟨car, by simp, by rw [hex, h]⟩
      | ok c =>
          have hstep : store_car car now dbNow db =
              Except.ok (store_car_run c now dbNow db) := by
            rw [store_car, hex]; rfl
          rw [hstep] at h
          simp only [Except.bind] at h
          cases hrest : store_cars_loop now dbNow rest
              (store_car_run c now dbNow db).1 with
          | error e2 =>
              rw [hrest] at h
              simp only [Except.error.injEq] at h
              obtain ⟨car', hmem, hcar'⟩ :=
                store_cars_loop_error_spec now dbNow rest _ e2 hrest
              exact ⟨car', List.mem_cons_of_mem _ hmem, by rw [hcar', h]⟩
          | ok q => rw [hrest] at h; simp at h

/-- C9: storing one page is all-or-nothing.  If `store_cars` succeeds,
every record of the page was processed (each extraction succeeded) and
the committed database holds one new row per record in each history
table; if any record raises, the exception propagates before the
commit, the error is the failing record's, and the committed database
is exactly the one from before the page. -/
theorem C9_page_commit_atomicity (cars : List RawCar) (now dbNow : String)
    (db : DB) :
    (∀ db' evs, store_cars cars now dbNow db = Except.ok (db', evs) →
      (∀ car ∈ cars, ∃ c, extract car = Except.ok c) ∧
      db'.car_prices.length = db.car_prices.length + cars.length ∧
      db'.car_mileages.length = db.car_mileages.length + cars.length ∧
      db'.car_inventory_dates.length = db.car_inventory_dates.length + cars.length) ∧
    (∀ e, store_cars cars now dbNow db = Except.error e →
      (∃ car ∈ cars, extract car = Except.error e) ∧
      commitOf (store_cars cars now dbNow db) db = db) := by
  constructor
  · intro db' evs h
    exact store_cars_loop_ok_spec now dbNow cars db db' evs h
  · intro e h
    refine ⟨store_cars_loop_error_spec now dbNow cars db e h, ?_⟩
    have h' : store_cars cars now dbNow db = Except.error e := h
    rw [h']
    rfl

/-- Witness for C9: the one-record page `[sampleCar]` stored on an empty
database succeeds and each history table gains exactly one row. -/
theorem C9_page_commit_atomicity_witness :
    (∃ c, extract (toRaw sampleCar) = Except.ok c) ∧
    sampleDB1.car_prices.length = emptyDB.car_prices.length + 1 := by
  have h := (C9_page_commit_atomicity [toRaw sampleCar] "T1" "D1" emptyDB).1
    sampleDB1 [] rfl
  exact ⟨h.1 (toRaw sampleCar) (by simp), by simpa using h.2.1⟩

end InventoryTracker

namespace InventoryTracker

/-! ## Claim C7: a failed targeted re-check must not mark removal -/

/-- C7: when the VIN-filtered fetch for a removal candidate fails, the
exception propagates before the `UPDATE`, nothing is committed, and the
candidate's row — its `removal_date` included — is exactly as before,
so the candidate is reconsidered on a later sweep. -/
theorem C7_failed_recheck_no_removal
    (u : String) (db : DB) (row : CarRow) (fetchVin : String → FetchResult)
    (now dbNow : String)
    (hrow : db.cars.find? (fun r => r.uuid == u) = some row)
    (hfail : fetchVin row.vin = FetchResult.unavailable) :
    check_and_update_car u fetchVin now dbNow db =
      Except.error PyError.sourceUnavailable ∧
    (commitOf (check_and_update_car u fetchVin now dbNow db) db).cars.find?
        (fun r => r.uuid == u) = some row := by
  have h : check_and_update_car u fetchVin now dbNow db =
      Except.error PyError.sourceUnavailable := by
    rw [check_and_update_car, hrow]
    dsimp only
    rw [hfail]
  refine ⟨h, ?_⟩
  rw [h]
  exact hrow

/-- Witness for C7: re-checking the active vehicle of `sampleDB1` while
the source is down leaves its row (with null `removal_date`) intact. -/
theorem C7_failed_recheck_no_removal_witness :
    check_and_update_car "u1" (fun _ => FetchResult.unavailable) "T9" "D9"
        sampleDB1 = Except.error PyError.sourceUnavailable ∧
    (commitOf (check_and_update_car "u1" (fun _ => FetchResult.unavailable)
        "T9" "D9" sampleDB1) sampleDB1).cars.find? (fun r => r.uuid == "u1") =
      some (newRow sampleCar "T1") := by
  exact C7_failed_recheck_no_removal "u1" sampleDB1 (newRow sampleCar "T1")
    (fun _ => FetchResult.unavailable) "T9" "D9" (by rfl) rfl

end InventoryTracker

namespace InventoryTracker

/-! ## Inversion lemmas for extraction, matching and re-checking -/

theorem extract_ok_iff (car : RawCar) (ce : ExtractedCar) :
    extract car = Except.ok ce ↔ car = toRaw ce := by
  constructor
  · intro h
    obtain ⟨u, v, mk, mo, y, od, ip, ad, idt, ity, l⟩ := car
    cases u with
    | none => simp [extract, getKey, Bind.bind, Except.bind] at h
    | some u0 =>
    cases v with
    | none => simp [extract, getKey, Bind.bind, Except.bind] at h
    | some v0 =>
    cases mk with
    | none => simp [extract, getKey, Bind.bind, Except.bind] at h
    | some mk0 =>
    cases mo with
    | none => simp [extract, getKey, Bind.bind, Except.bind] at h
    | some mo0 =>
    cases y with
    | none => simp [extract, getKey, Bind.bind, Except.bind] at h
    | some y0 =>
    cases od with
    | none => simp [extract, getKey, Bind.bind, Except.bind] at h
    | some od0 =>
    cases ip with
    | none => simp [extract, getKey, Bind.bind, Except.bind] at h
    | some ip0 =>
    cases ad with
    | none => simp [extract, getKey, Bind.bind, Except.bind] at h
    | some ad0 =>
    obtain ⟨ac, as_, ap⟩ := ad0
    cases ac with
    | none => simp [extract, getKey, Bind.bind, Except.bind] at h
    | some ac0 =>
    cases as_ with
    | none => simp [extract, getKey, Bind.bind, Except.bind] at h
    | some as0 =>
    cases ap with
    | none => simp [extract, getKey, Bind.bind, Except.bind] at h
    | some ap0 =>
    cases idt with
    | none => simp [extract, getKey, Bind.bind, Except.bind] at h
    | some idt0 =>
    cases ity with
    | none => simp [extract, getKey, Bind.bind, Except.bind] at h
    | some ity0 =>
    cases l with
    | none => simp [extract, getKey, Bind.bind, Except.bind] at h
    | some l0 =>
    have h' : (⟨u0, v0, mk0, mo0, y0, od0, ip0, ac0, as0, ap0, idt0, ity0, l0⟩ :
        ExtractedCar) = ce := by
      simpa [extract, getKey, Bind.bind, Except.bind] using h
    rw [← h']
    rfl
  · intro h
    rw [h]
    rfl

theorem extract_error_keyError (car : RawCar) (e : PyError)
    (h : extract car = Except.error e) : ∃ k, e = PyError.keyError k := by
  obtain ⟨u, v, mk, mo, y, od, ip, ad, idt, ity, l⟩ := car
  cases u with
  | none =>
      simp [extract, getKey, Bind.bind, Except.bind] at h
      exact ⟨"uuid", h.symm⟩
  | some u0 =>
  cases v with
  | none =>
      simp [extract, getKey, Bind.bind, Except.bind] at h
      exact ⟨"vin", h.symm⟩
  | some v0 =>
  cases mk with
  | none =>
      simp [extract, getKey, Bind.bind, Except.bind] at h
      exact ⟨"make", h.symm⟩
  | some mk0 =>
  cases mo with
  | none =>
      simp [extract, getKey, Bind.bind, Except.bind] at h
      exact ⟨"model", h.symm⟩
  | some mo0 =>
  cases y with
  | none =>
      simp [extract, getKey, Bind.bind, Except.bind] at h
      exact ⟨"year", h.symm⟩
  | some y0 =>
  cases od with
  | none =>
      simp [extract, getKey, Bind.bind, Except.bind] at h
      exact ⟨"odometer", h.symm⟩
  | some od0 =>
  cases ip with
  | none =>
      simp [extract, getKey, Bind.bind, Except.bind] at h
      exact ⟨"internetPrice", h.symm⟩
  | some ip0 =>
  cases ad with
  | none =>
      simp [extract, getKey, Bind.bind, Except.bind] at h
      exact ⟨"address", h.symm⟩
  | some ad0 =>
  obtain ⟨ac, as_, ap⟩ := ad0
  cases ac with
  | none =>
      simp [extract, getKey, Bind.bind, Except.bind] at h
      exact ⟨"city", h.symm⟩
  | some ac0 =>
  cases as_ with
  | none =>
      simp [extract, getKey, Bind.bind, Except.bind] at h
      exact ⟨"state", h.symm⟩
  | some as0 =>
  cases ap with
  | none =>
      simp [extract, getKey, Bind.bind, Except.bind] at h
      exact ⟨"postalCode", h.symm⟩
  | some ap0 =>
  cases idt with
  | none =>
      simp [extract, getKey, Bind.bind, Except.bind] at h
      exact ⟨"inventoryDate", h.symm⟩
  | some idt0 =>
  cases ity with
  | none =>
      simp [extract, getKey, Bind.bind, Except.bind] at h
      exact ⟨"inventoryType", h.symm⟩
  | some ity0 =>
  cases l with
  | none =>
      simp [extract, getKey, Bind.bind, Except.bind] at h
      exact ⟨"link", h.symm⟩
  | some l0 =>
      simp [extract, getKey, Bind.bind, Except.bind] at h

theorem findMatchingCar_uuid (u : String) :
    ∀ (cars : List RawCar) (c : RawCar),
      findMatchingCar u cars = Except.ok (some c) → c.uuid = some u
  | [], c, h => by simp [findMatchingCar] at h
  | c' :: rest, c, h => by
      rw [findMatchingCar] at h
      cases hu : c'.uuid with
      | none => rw [hu] at h; cases h
      | some u0 =>
          rw [hu] at h
          dsimp only at h
          by_cases he : u0 = u
          · subst he
            simp only [beq_self_eq_true, if_true, Except.ok.injEq,
              Option.some.injEq] at h
            rw [← h, hu]
          · rw [if_neg (by simpa using he)] at h
            exact findMatchingCar_uuid u rest c h

theorem findMatchingCar_error_keyError (u : String) :
    ∀ (cars : List RawCar) (e : PyError),
      findMatchingCar u cars = Except.error e → e = PyError.keyError "uuid"
  | [], e, h => by simp [findMatchingCar] at h
  | c' :: rest, e, h => by
      rw [findMatchingCar] at h
      cases hu : c'.uuid with
      | none =>
          rw [hu] at h
          cases h
          rfl
      | some u0 =>
          rw [hu] at h
          dsimp only at h
          by_cases he : u0 = u
          · subst he
            simp at h
          · rw [if_neg (by simpa using he)] at h
            exact findMatchingCar_error_keyError u rest e h

end InventoryTracker

namespace InventoryTracker

/-- Inversion of a successful re-check at a present uuid: the fetch
succeeded, and the state is either the removal update or the
reconciliation of the matching record (whose uuid is `u`). -/
theorem check_and_update_car_inv (u : String) (fetchVin : String → FetchResult)
    (now dbNow : String) (db db1 : DB) (ev : List ChangeEvent) (row : CarRow)
    (hrow : db.cars.find? (fun r => r.uuid == u) = some row)
    (hok : check_and_update_car u fetchVin now dbNow db = Except.ok (db1, ev)) :
    ∃ cars, fetchVin row.vin = FetchResult.ok cars ∧
      ((findMatchingCar u cars = Except.ok none ∧
        db1 = markRemoved u now db) ∨
       (∃ c ce, findMatchingCar u cars = Except.ok (some c) ∧
         extract c = Except.ok ce ∧ ce.uuid = u ∧
         db1 = (store_car_run ce now dbNow db).1)) := by
  rw [check_and_update_car, hrow] at hok
  dsimp only at hok
  cases hf : fetchVin row.vin with
  | unavailable => rw [hf] at hok; cases hok
  | ok cars =>
      rw [hf] at hok
      dsimp only at hok
      refine ⟨cars, rfl, ?_⟩
      cases hm : findMatchingCar u cars with
      | error e => rw [hm] at hok; cases hok
      | ok car =>
          rw [hm] at hok
          cases car with
          | none =>
              dsimp only at hok
              simp only [Except.ok.injEq, Prod.mk.injEq] at hok
              exact Or.inl ⟨rfl, hok.1.symm⟩
          | some c =>
              dsimp only at hok
              cases hex : extract c with
              | error e =>
                  rw [store_car, hex] at hok
                  cases hok
              | ok ce =>
                  have hsc : store_car c now dbNow db =
                      Except.ok (store_car_run ce now dbNow db) := by
                    rw [store_car, hex]; rfl
                  rw [hsc] at hok
                  simp only [Except.ok.injEq] at hok
                  have hcu : c.uuid = some u := findMatchingCar_uuid u cars c hm
                  have hceq : c = toRaw ce := (extract_ok_iff c ce).mp hex
                  have hceu : ce.uuid = u := by
                    rw [hceq] at hcu
                    exact Option.some.inj (by simpa [toRaw] using hcu)
                  refine Or.inr ⟨c, ce, rfl, hex, hceu, ?_⟩
                  rw [hok]

/-- A successful re-check of `u` leaves every other uuid's row lookup
unchanged. -/
theorem check_and_update_car_frame (u v : String)
    (fetchVin : String → FetchResult) (now dbNow : String)
    (db db1 : DB) (ev : List ChangeEvent) (hne : v ≠ u)
    (hok : check_and_update_car u fetchVin now dbNow db = Except.ok (db1, ev)) :
    db1.cars.find? (fun r => r.uuid == v) =
      db.cars.find? (fun r => r.uuid == v) := by
  cases hrow : db.cars.find? (fun r => r.uuid == u) with
  | none => rw [check_and_update_car, hrow] at hok; cases hok
  | some row =>
      obtain ⟨cars, hfv, hcase⟩ :=
        check_and_update_car_inv u fetchVin now dbNow db db1 ev row hrow hok
      rcases hcase with ⟨hm, hdb1⟩ | ⟨c, ce, hm, hex, hceu, hdb1⟩
      · rw [hdb1]
        exact markRemoved_find_other u now db v hne
      · rw [hdb1, store_car_run_cars]
        exact upsertCar_find_other ce now db v (by rw [hceu]; exact hne)

/-- A successful re-check never deletes a row: every uuid resolvable
before is resolvable after. -/
theorem check_and_update_car_preserves_present (u v : String)
    (fetchVin : String → FetchResult) (now dbNow : String)
    (db db1 : DB) (ev : List ChangeEvent)
    (hok : check_and_update_car u fetchVin now dbNow db = Except.ok (db1, ev))
    (hv : (db.cars.find? (fun r => r.uuid == v)).isSome) :
    (db1.cars.find? (fun r => r.uuid == v)).isSome := by
  by_cases hne : v = u
  · subst hne
    cases hrow : db.cars.find? (fun r => r.uuid == v) with
    | none => rw [check_and_update_car, hrow] at hok; cases hok
    | some row =>
        obtain ⟨cars, hfv, hcase⟩ :=
          check_and_update_car_inv v fetchVin now dbNow db db1 ev row hrow hok
        rcases hcase with ⟨hm, hdb1⟩ | ⟨c, ce, hm, hex, hceu, hdb1⟩
        · rw [hdb1, markRemoved_find_self v now db row hrow]
          rfl
        · rw [hdb1, store_car_run_cars]
          have := upsertCar_find_self ce now db
          rw [hceu] at this
          rw [this]
          rfl
  · rw [check_and_update_car_frame u v fetchVin now dbNow db db1 ev hne hok]
    exact hv

/-- If the looked-up uuid is present, a failing re-check fails with the
source error or a `KeyError` — never with the `None`-subscript error. -/
theorem check_and_update_car_error_classify (u : String)
    (fetchVin : String → FetchResult) (now dbNow : String) (db : DB)
    (e : PyError)
    (hpresent : (db.cars.find? (fun r => r.uuid == u)).isSome)
    (herr : check_and_update_car u fetchVin now dbNow db = Except.error e) :
    e ≠ PyError.noneSubscript := by
  cases hrow : db.cars.find? (fun r => r.uuid == u) with
  | none => rw [hrow] at hpresent; cases hpresent
  | some row =>
      rw [check_and_update_car, hrow] at herr
      dsimp only at herr
      cases hf : fetchVin row.vin with
      | unavailable =>
          rw [hf] at herr
          cases herr
          intro hc
          cases hc
      | ok cars =>
          rw [hf] at herr
          dsimp only at herr
          cases hm : findMatchingCar u cars with
          | error e1 =>
              rw [hm] at herr
              cases herr
              have hcl := findMatchingCar_error_keyError u cars _ hm
              rw [hcl]
              intro hc
              cases hc
          | ok car =>
              rw [hm] at herr
              cases car with
              | none => cases herr
              | some c =>
                  dsimp only at herr
                  cases hex : extract c with
                  | ok ce =>
                      have hsc : store_car c now dbNow db =
                          Except.ok (store_car_run ce now dbNow db) := by
                        rw [store_car, hex]; rfl
                      rw [hsc] at herr
                      cases herr
                  | error e2 =>
                      have hsc : store_car c now dbNow db =
                          Except.error e2 := by
                        rw [store_car, hex]; rfl
                      rw [hsc] at herr
                      cases herr
                      obtain ⟨k, hk⟩ := extract_error_keyError c _ hex
                      rw [hk]
                      intro hc
                      cases hc

end InventoryTracker

namespace InventoryTracker

theorem removalLoop_cons (fetchVin : String → FetchResult) (now dbNow : String)
    (u : String) (rest : List String) (db : DB) :
    removalLoop fetchVin now dbNow (u :: rest) db =
      (check_and_update_car u fetchVin now dbNow db).bind (fun p =>
        removalLoop fetchVin now dbNow rest p.1) := rfl

theorem removalLoop_frame (fetchVin : String → FetchResult) (now dbNow : String) :
    ∀ (us : List String) (db db' : DB),
      removalLoop fetchVin now dbNow us db = Except.ok db' →
      ∀ v, v ∉ us →
        db'.cars.find? (fun r => r.uuid == v) =
          db.cars.find? (fun r => r.uuid == v)
  | [], db, db', h, v, hv => by
      simp only [removalLoop, Except.ok.injEq] at h
      rw [h]
  | u :: rest, db, db', h, v, hv => by
      rw [removalLoop_cons] at h
      cases hstep : check_and_update_car u fetchVin now dbNow db with
      | error e => rw [hstep] at h; cases h
      | ok p =>
          rw [hstep] at h
          have hvu : v ≠ u := fun he => hv (by rw [he]; exact List.mem_cons_self u rest)
          have hvr : v ∉ rest := fun hm => hv (List.mem_cons_of_mem _ hm)
          have h1 := removalLoop_frame fetchVin now dbNow rest p.1 db' h v hvr
          have h2 := check_and_update_car_frame u v fetchVin now dbNow db p.1 p.2
            hvu (by rw [hstep])
          rw [h1, h2]

theorem removalLoop_no_noneSubscript (fetchVin : String → FetchResult)
    (now dbNow : String) :
    ∀ (us : List String) (db : DB),
      (∀ u ∈ us, (db.cars.find? (fun r => r.uuid == u)).isSome) →
      removalLoop fetchVin now dbNow us db ≠
        Except.error PyError.noneSubscript
  | [], db, _ => by
      simp [removalLoop]
  | u :: rest, db, hpres => by
      rw [removalLoop_cons]
      cases hstep : check_and_update_car u fetchVin now dbNow db with
      | error e =>
          have hne := check_and_update_car_error_classify u fetchVin now dbNow
            db e (hpres u (List.mem_cons_self u rest)) hstep
          intro hc
          exact hne (by cases hc; rfl)
      | ok p =>
          have hrest : ∀ v ∈ rest, (p.1.cars.find? (fun r => r.uuid == v)).isSome :=
            fun v hv => check_and_update_car_preserves_present u v fetchVin now
              dbNow db p.1 p.2 (by rw [hstep]) (hpres v (List.mem_cons_of_mem _ hv))
          exact removalLoop_no_noneSubscript fetchVin now dbNow rest p.1 hrest

end InventoryTracker

namespace InventoryTracker

/-- What a completed removal phase does to one candidate `u` (present in
the store, re-checked by its VIN): it is decided solely by the targeted
re-check's outcome. -/
theorem removalLoop_processes (fetchVin : String → FetchResult)
    (now dbNow : String) :
    ∀ (us : List String) (db db' : DB) (u : String) (row : CarRow),
      us.Nodup → u ∈ us →
      db.cars.find? (fun r => r.uuid == u) = some row →
      removalLoop fetchVin now dbNow us db = Except.ok db' →
      ∀ cars, fetchVin row.vin = FetchResult.ok cars →
        ((findMatchingCar u cars = Except.ok none →
          db'.cars.find? (fun r => r.uuid == u) =
            some { row with removal_date := some now }) ∧
         (∀ c, findMatchingCar u cars = Except.ok (some c) →
           ∃ ce, extract c = Except.ok ce ∧
             db'.cars.find? (fun r => r.uuid == u) =
               some (updateRow row ce now)))
  | [], db, db', u, row, hnd, hmem, hrow, h =>
      absurd hmem (List.not_mem_nil u)
  | v :: rest, db, db', u, row, hnd, hmem, hrow, h => by
      rw [removalLoop_cons] at h
      cases hstep : check_and_update_car v fetchVin now dbNow db with
      | error e => rw [hstep] at h; cases h
      | ok p =>
          rw [hstep] at h
          by_cases huv : u = v
          · subst huv
            obtain ⟨cars0, hf0, hcase⟩ := check_and_update_car_inv u fetchVin
              now dbNow db p.1 p.2 row hrow (by rw [hstep])
            have hurest : u ∉ rest := (List.nodup_cons.mp hnd).1
            have hframe := removalLoop_frame fetchVin now dbNow rest p.1 db' h
              u hurest
            intro cars hf
            have hcc : cars0 = cars := by
              rw [hf0] at hf
              cases hf
              rfl
            subst hcc
            constructor
            · intro hmn
              rcases hcase with ⟨hm0, hdb1⟩ | ⟨c, ce, hm0, hex, hceu, hdb1⟩
              · rw [hframe, hdb1, markRemoved_find_self u now db row hrow]
              · rw [hm0] at hmn; cases hmn
            · intro c hms
              rcases hcase with ⟨hm0, hdb1⟩ | ⟨c0, ce, hm0, hex, hceu, hdb1⟩
              · rw [hm0] at hms; cases hms
              · rw [hm0] at hms
                have hc0 : c0 = c := by cases hms; rfl
                subst hc0
                refine ⟨ce, hex, ?_⟩
                rw [hframe, hdb1, store_car_run_cars]
                have hself := upsertCar_find_self ce now db
                rw [hceu] at hself
                rw [hself, hrow]
          · have humem : u ∈ rest := by
              rcases List.mem_cons.mp hmem with he | hm
              · exact absurd he huv
              · exact hm
            have hrow1 : p.1.cars.find? (fun r => r.uuid == u) = some row := by
              rw [check_and_update_car_frame v u fetchVin now dbNow db p.1 p.2
                huv (by rw [hstep])]
              exact hrow
            exact removalLoop_processes fetchVin now dbNow rest p.1 db' u row
              (List.nodup_cons.mp hnd).2 humem hrow1 h

theorem mem_candidateUuids (db : DB) (encountered : List String) (u : String)
    (row : CarRow) (hrow : db.cars.find? (fun r => r.uuid == u) = some row)
    (hactive : row.removal_date = none) (henc : u ∉ encountered) :
    u ∈ candidateUuids db encountered := by
  have hmem : row ∈ db.cars := List.mem_of_find?_eq_some hrow
  have hpu : row.uuid = u := by simpa using List.find?_some hrow
  simp only [candidateUuids, activeUuids, List.mem_filter, List.mem_map]
  exact ⟨⟨row, ⟨hmem, by simp [hactive]⟩, hpu⟩, by simp [henc]⟩

theorem candidateUuids_nodup (db : DB) (encountered : List String)
    (hnodup : (db.cars.map (fun r => r.uuid)).Nodup) :
    (candidateUuids db encountered).Nodup := by
  have hsub : ((db.cars.filter (fun r => r.removal_date.isNone)).map
      (fun r => r.uuid)).Sublist (db.cars.map (fun r => r.uuid)) :=
    List.Sublist.map _ (List.filter_sublist _)
  exact List.Nodup.filter _ (List.Nodup.sublist hsub hnodup)

end InventoryTracker

namespace InventoryTracker

/-! ## Claim C3: removal is decided by the targeted VIN re-check -/

/-- C3: take a sweep whose removal phase completed (`removalLoop` over
the candidates — active uuids not encountered — succeeded).  For a
candidate `u`: if its targeted VIN re-check returned records with no
matching uuid, the sweep ends with `u`'s `removal_date` set to the
re-check's timestamp `now`; if the re-check did return a matching
record, `removal_date` stays null and the row is updated by normal
reconciliation of that record. -/
theorem C3_removal_recheck_decides
    (db : DB) (encountered : List String) (fetchVin : String → FetchResult)
    (now dbNow : String) (db' : DB) (u : String) (row : CarRow)
    (hnodup : (db.cars.map (fun r => r.uuid)).Nodup)
    (hrow : db.cars.find? (fun r => r.uuid == u) = some row)
    (hactive : row.removal_date = none)
    (henc : u ∉ encountered)
    (hphase : removalLoop fetchVin now dbNow (candidateUuids db encountered)
      db = Except.ok db') :
    ∀ cars, fetchVin row.vin = FetchResult.ok cars →
      ((findMatchingCar u cars = Except.ok none →
        db'.cars.find? (fun r => r.uuid == u) =
          some { row with removal_date := some now } ∧
        ({ row with removal_date := some now } : CarRow).removal_date =
          some now) ∧
       (∀ c, findMatchingCar u cars = Except.ok (some c) →
         ∃ ce, extract c = Except.ok ce ∧
           db'.cars.find? (fun r => r.uuid == u) =
             some (updateRow row ce now) ∧
           (updateRow row ce now).removal_date = none)) := by
  intro cars hf
  have h := removalLoop_processes fetchVin now dbNow
    (candidateUuids db encountered) db db' u row
    (candidateUuids_nodup db encountered hnodup)
    (mem_candidateUuids db encountered u row hrow hactive henc)
    hrow hphase cars hf
  refine ⟨fun hm => ⟨h.1 hm, rfl⟩, fun c hm => ?_⟩
  obtain ⟨ce, h1, h2⟩ := h.2 c hm
  exact ⟨ce, h1, h2, rfl⟩

/-- Witness for C3: the active vehicle of `sampleDB1` is absent from the
sweep and its VIN re-check returns nothing, so the phase ends with its
`removal_date` set to the re-check time `TR`. -/
theorem C3_removal_recheck_decides_witness :
    sampleDBRemoved.cars.find? (fun r => r.uuid == "u1") =
      some { newRow sampleCar "T1" with removal_date := some "TR" } ∧
    ({ newRow sampleCar "T1" with removal_date := some "TR" } :
      CarRow).removal_date = some "TR" := by
  have h := C3_removal_recheck_decides sampleDB1 [] (fun _ => FetchResult.ok [])
    "TR" "DR" sampleDBRemoved "u1" (newRow sampleCar "T1")
    (by simp [sampleDB1, store_car_run, upsertCar, emptyDB])
    (by rfl) rfl (by simp) (by rfl) [] rfl
  exact h.1 rfl

end InventoryTracker

namespace InventoryTracker

/-! ## Claim C10: the re-check's unguarded row dereference is safe -/

/-- C10: `check_and_update_car` presupposes its uuid names an existing
row — on a missing row the `fetchone()[0]` dereference raises (first
conjunct).  Under the sweep controller's usage the precondition holds:
every removal candidate is drawn from the `cars` table (second
conjunct), rows are never deleted, so the removal phase can never fail
with the `None`-subscript error (third conjunct). -/
theorem C10_candidate_lookup_safe
    (db : DB) (encountered : List String) (fetchVin : String → FetchResult)
    (now dbNow : String) :
    (∀ u, db.cars.find? (fun r => r.uuid == u) = none →
      check_and_update_car u fetchVin now dbNow db =
        Except.error PyError.noneSubscript) ∧
    (∀ u ∈ candidateUuids db encountered,
      (db.cars.find? (fun r => r.uuid == u)).isSome) ∧
    removalLoop fetchVin now dbNow (candidateUuids db encountered) db ≠
      Except.error PyError.noneSubscript := by
  have hpres : ∀ u ∈ candidateUuids db encountered,
      (db.cars.find? (fun r => r.uuid == u)).isSome := by
    intro u hu
    simp only [candidateUuids, activeUuids, List.mem_filter,
      List.mem_map] at hu
    obtain ⟨⟨r, hr, hru⟩, _⟩ := hu
    rw [List.find?_isSome]
    exact ⟨r, hr.1, by simp [hru]⟩
  refine ⟨?_, hpres, ?_⟩
  · intro u hnone
    rw [check_and_update_car, hnone]
  · exact removalLoop_no_noneSubscript fetchVin now dbNow _ db hpres

/-- Witness for C10: on `sampleDB1`, a lookup of an absent uuid raises
the `None`-subscript error, while the removal phase over the real
candidates never does. -/
theorem C10_candidate_lookup_safe_witness :
    check_and_update_car "zz" (fun _ => FetchResult.ok []) "TR" "DR"
        sampleDB1 = Except.error PyError.noneSubscript ∧
    removalLoop (fun _ => FetchResult.ok []) "TR" "DR"
        (candidateUuids sampleDB1 []) sampleDB1 ≠
      Except.error PyError.noneSubscript := by
  have h := C10_candidate_lookup_safe sampleDB1 []
    (fun _ => FetchResult.ok []) "TR" "DR"
  exact ⟨h.1 "zz" (by rfl), h.2.2⟩

end InventoryTracker

namespace InventoryTracker

/-! ## Claim C8: what a completed sweep returns -/

/-- Counterexample to C8 as stated: two completed sweeps whose outcomes
differ (one vehicle inserted versus two) produce identical return
values — `main` returns Python's `None` (unit), not the counts of
inserted/updated/removed/reactivated vehicles.  The counts are not part
of any return value. -/
theorem C8_counterexample :
    (main_run [[toRaw sampleCar]] (fun _ => FetchResult.ok [])
        "T1" "D1" emptyDB).map Prod.snd =
      (main_run [[toRaw sampleCar, toRaw sampleCar2]]
        (fun _ => FetchResult.ok []) "T1" "D1" emptyDB).map Prod.snd ∧
    (main_run [[toRaw sampleCar]] (fun _ => FetchResult.ok [])
        "T1" "D1" emptyDB).map (fun p => p.1.cars.length) = Except.ok 1 ∧
    (main_run [[toRaw sampleCar, toRaw sampleCar2]]
        (fun _ => FetchResult.ok []) "T1" "D1" emptyDB).map
        (fun p => p.1.cars.length) = Except.ok 2 :=
  ⟨rfl, rfl, rfl⟩

/-- C8 amended: a completed full sweep returns no result value beyond
Python's implicit `None`: the returned value is the same unit for every
successful `main_run`, so it carries no counts; only the database state
and the printed output reflect the sweep's outcome. -/
theorem C8_sweep_returns_no_counts
    (p1 p2 : List (List RawCar)) (f1 f2 : String → FetchResult)
    (n1 d1 n2 d2 : String) (dbI1 dbI2 dbO1 dbO2 : DB) (r1 r2 : Unit)
    (h1 : main_run p1 f1 n1 d1 dbI1 = Except.ok (dbO1, r1))
    (h2 : main_run p2 f2 n2 d2 dbI2 = Except.ok (dbO2, r2)) :
    r1 = r2 := rfl

/-- Witness for C8 (amended): two concrete completed sweeps — one
inserting a vehicle, one over an empty source — return the same unit. -/
theorem C8_sweep_returns_no_counts_witness : (() : Unit) = () :=
  C8_sweep_returns_no_counts [[toRaw sampleCar]] [[]]
    (fun _ => FetchResult.ok []) (fun _ => FetchResult.ok [])
    "T1" "D1" "T2" "D2" emptyDB emptyDB
    (store_car_run sampleCar "T1" "D1" emptyDB).1 emptyDB () () rfl rfl

end InventoryTracker
